import Mathlib

/-!
Verification of the `ath-events` event monitor (`check_events.py`).

This file shallowly embeds the pure core of the script: the string
normalisation helpers, the strict date-header parser, the calendar/weekday
computation, the `Event` record with its (de)serialisation, the filter
predicates, and the diff/notification/persistence logic of `main`.  Python
strings are modelled as Lean `String`s over their character lists; the
embedding of `str.upper`/`str.lower`/`\s` covers the ASCII range, which is
the alphabet all statuses, titles, date strings and keywords of this
program live in.  Python `int` is modelled by `Int`, Python dicts (which
preserve insertion order, overwrite values in place and append new keys at
the end) by ordered association lists, and Python's stable `list.sort` /
`sorted` by `List.insertionSort` (a stable sort, hence extensionally equal
to CPython's timsort for every sort key).
-/

namespace AthEvents

/-! ## Python string primitives (ASCII fragment) -/

/-- Characters matched by Python's `\s` / `str.strip()` in the ASCII range. -/
def pyIsSpace (c : Char) : Bool :=
  c = ' ' || c = '\t' || c = '\n' || c = '\r' || c = '\x0b' || c = '\x0c'

/-- One step of collapsing whitespace runs, folded from the right:
a whitespace character merges into a following collapsed run. -/
def squashStep (c : Char) (acc : List Char) : List Char :=
  if pyIsSpace c then
    match acc with
    | ' ' :: _ => acc
    | _ => ' ' :: acc
  else c :: acc

/-- Model of `re.sub(r"\s+", " ", s)`: every maximal whitespace run becomes
a single space. -/
def squashWs (cs : List Char) : List Char :=
  cs.foldr squashStep []

/-- Model of `str.strip()` on character lists. -/
def pyStripL (cs : List Char) : List Char :=
  ((cs.dropWhile pyIsSpace).reverse.dropWhile pyIsSpace).reverse

/-- Model of `str.strip()`. -/
def pyStrip (s : String) : String :=
  String.mk (pyStripL s.data)

/-- Source `norm`: `re.sub(r"\s+", " ", s or "").strip()`. -/
def norm (s : String) : String :=
  String.mk (pyStripL (squashWs s.data))

/-- Model of `str.upper()` (ASCII). -/
def pyUpper (s : String) : String :=
  String.mk (s.data.map Char.toUpper)

/-- Model of `str.lower()` (ASCII). -/
def pyLower (s : String) : String :=
  String.mk (s.data.map Char.toLower)

/-- Fuelled worker for `str.replace`: scan left to right, replacing each
occurrence of `pat` and continuing after the replacement. -/
def replaceGo (pat rep : List Char) : Nat → List Char → List Char
  | 0, cs => cs
  | _ + 1, [] => []
  | n + 1, c :: cs =>
    if pat.isPrefixOf (c :: cs) then rep ++ replaceGo pat rep n ((c :: cs).drop pat.length)
    else c :: replaceGo pat rep n cs

/-- Model of Python `s.replace(pat, rep)` for a non-empty pattern. -/
def pyReplace (s pat rep : String) : String :=
  String.mk (replaceGo pat.data rep.data s.data.length s.data)

/-- Structural worker for decimal printing; `fuel > n` always suffices. -/
def natDigitsGo (fuel n : Nat) : List Char :=
  match fuel with
  | 0 => []
  | f + 1 =>
    if n < 10 then [Char.ofNat (48 + n)]
    else natDigitsGo f (n / 10) ++ [Char.ofNat (48 + n % 10)]

/-- Decimal digits of a natural number, most significant first. -/
def natDigits (n : Nat) : List Char :=
  natDigitsGo (n + 1) n

/-- Model of Python `str(n)` for `n : Nat` (also used for `len(...)`). -/
def natStr (n : Nat) : String :=
  String.mk (natDigits n)

/-- Model of Python `str(i)` for an `int` (f-string interpolation). -/
def pyIntRepr (i : Int) : String :=
  if i < 0 then String.mk ('-' :: natDigits i.natAbs) else String.mk (natDigits i.toNat)

/-- Numeric value of a decimal digit character. -/
def digitVal (c : Char) : Nat :=
  c.toNat - 48

/-- Model of Python `int(s)` on a string of decimal digits. -/
def natOfDigits (ds : List Char) : Nat :=
  ds.foldl (fun a c => 10 * a + digitVal c) 0

/-- Model of `"\n".join(lines)`. -/
def joinNl (ls : List String) : String :=
  String.intercalate "\n" ls

/-! ## Months and the strict date-header pattern -/

/-- Source `MONTHS`: the twelve-name table, in the order the regex
alternation lists them. -/
def MONTHS : List (String × Int) :=
  [("JANUARY", 1), ("FEBRUARY", 2), ("MARCH", 3), ("APRIL", 4),
   ("MAY", 5), ("JUNE", 6), ("JULY", 7), ("AUGUST", 8),
   ("SEPTEMBER", 9), ("OCTOBER", 10), ("NOVEMBER", 11), ("DECEMBER", 12)]

/-- Source `MONTH_BY_NUM.get(m, "")`: the name of month `m`, or `""`. -/
def MONTH_BY_NUM (m : Int) : String :=
  match MONTHS.find? (fun p => p.2 == m) with
  | some p => p.1
  | none => ""

/-- Case-insensitive literal prefix match (the pattern is stored uppercase,
as in the regex run with `re.I`); returns the rest of the input. -/
def stripMonthCI : List Char → List Char → Option (List Char)
  | [], cs => some cs
  | _ :: _, [] => none
  | p :: ps, c :: cs => if Char.toUpper c = p then stripMonthCI ps cs else none

/-- The month-name alternation of `DATE_HDR_RE` combined with the
`MONTHS.get(m.group(1).upper())` lookup that follows every match: no month
name is a prefix of another, so the regex's committed first match and the
table lookup of the uppercased match yield exactly this. -/
def matchMonth : List (String × Int) → List Char → Option (Int × List Char)
  | [], _ => none
  | (name, num) :: rest, cs =>
    match stripMonthCI name.data cs with
    | some cs2 => some (num, cs2)
    | none => matchMonth rest cs

/-- Full-match semantics of `DATE_HDR_RE`
(`^\s*(MONTH)\s+(\d{1,2}),\s*(\d{4})\s*$`, `re.I`), returning
`(year, month, day)` as the source functions do after the group
conversions.  The bounded greedy groups `\d{1,2}` and `\d{4}` succeed
exactly when the maximal digit run has the admissible length, and `\s*$`
succeeds exactly when only whitespace remains. -/
def dateHdrMatch (s : String) : Option (Int × Int × Int) :=
  let cs := s.data.dropWhile pyIsSpace
  match matchMonth MONTHS cs with
  | none => none
  | some (month, cs1) =>
    match cs1 with
    | [] => none
    | c :: cs2 =>
      if pyIsSpace c then
        let cs3 := cs2.dropWhile pyIsSpace
        let ds := cs3.takeWhile Char.isDigit
        let cs4 := cs3.dropWhile Char.isDigit
        if 1 ≤ ds.length && ds.length ≤ 2 then
          match cs4 with
          | [] => none
          | c4 :: cs5 =>
            if c4 = ',' then
              let cs6 := cs5.dropWhile pyIsSpace
              let ys := cs6.takeWhile Char.isDigit
              let cs7 := cs6.dropWhile Char.isDigit
              if ys.length = 4 && (cs7.dropWhile pyIsSpace).isEmpty then
                some ((natOfDigits ys : Int), month, (natOfDigits ds : Int))
              else none
            else none
        else none
      else none

/-- Source `parse_date_header`: normalise, then match the strict pattern. -/
def parse_date_header (s : String) : Option (Int × Int × Int) :=
  dateHdrMatch (norm s)

/-! ## Calendar (the fragment of `datetime` the source uses) -/

/-- Gregorian leap-year rule. -/
def isLeap (y : Nat) : Bool :=
  (y % 4 == 0 && !(y % 100 == 0)) || y % 400 == 0

/-- Length of month `m` in year `y`. -/
def daysInMonth (y m : Nat) : Nat :=
  if m = 2 then (if isLeap y then 29 else 28)
  else if m = 4 || m = 6 || m = 9 || m = 11 then 30
  else 31

/-- The dates accepted by `datetime(year, month, day)`
(`MINYEAR = 1`, `MAXYEAR = 9999`). -/
def validDate (y m d : Int) : Bool :=
  1 ≤ y && y ≤ 9999 && 1 ≤ m && m ≤ 12 && 1 ≤ d && d ≤ (daysInMonth y.toNat m.toNat : Int)

/-- Days before the first of month `m` in a common year. -/
def cumDays (m : Nat) : Nat :=
  match m with
  | 1 => 0 | 2 => 31 | 3 => 59 | 4 => 90 | 5 => 120 | 6 => 151
  | 7 => 181 | 8 => 212 | 9 => 243 | 10 => 273 | 11 => 304 | 12 => 334
  | _ => 0

/-- Proleptic-Gregorian ordinal of a date (`date.toordinal`; day 1 is
0001-01-01). -/
def toOrdinal (y m d : Nat) : Nat :=
  365 * (y - 1) + (y - 1) / 4 - (y - 1) / 100 + (y - 1) / 400
    + cumDays m + (if 2 < m && isLeap y then 1 else 0) + d

/-- Model of `datetime(y, m, d).weekday()` (`Mon = 0 .. Sun = 6`), `none`
when the constructor would raise. -/
def pyWeekdayOpt (y m d : Int) : Option Nat :=
  if validDate y m d then some ((toOrdinal y.toNat m.toNat d.toNat + 6) % 7) else none

/-- Source `weekday_abbrev`: three-letter day name, `"?"` on an invalid
date (the `except` branch). -/
def weekday_abbrev (y m d : Int) : String :=
  match pyWeekdayOpt y m d with
  | some w => ["Mon", "Tue", "Wed", "Thu", "Fri", "Sat", "Sun"].getD w "?"
  | none => "?"

/-! ## The Event record and its serialisation -/

/-- Source `normalize_status`. -/
def normalize_status (s : String) : String :=
  pyReplace (pyUpper (norm s)) "WAIT LISTED" "WAITLISTED"

/-- Source `Event` dataclass (the `date` triple stored as three fields, as
in the Python class). -/
structure Event where
  url : String
  year : Int
  month : Int
  day : Int
  time_et : String
  status : String
  title : String
  venue : String
  keywords : List String
deriving DecidableEq, Repr

/-- Source `Event.key`. -/
def Event.key (e : Event) : String :=
  e.url

/-- Source `Event.date_str`: `f"{mon} {day}, {year}".strip()`. -/
def date_str (e : Event) : String :=
  pyStrip (MONTH_BY_NUM e.month ++ " " ++ pyIntRepr e.day ++ ", " ++ pyIntRepr e.year)

/-- Source `Event.when_str`. -/
def when_str (e : Event) : String :=
  let mon := MONTH_BY_NUM e.month
  let dow := weekday_abbrev e.year e.month e.day
  let left := pyStrip (mon ++ " " ++ pyIntRepr e.day ++ " (" ++ dow ++ ")")
  if e.time_et == "" then left else left ++ " " ++ e.time_et ++ " ET"

/-- The JSON object written for one event (Python dicts keep this key
insertion order). -/
structure EventDict where
  url : String
  date : String
  time_et : String
  status : String
  event_title : String
  venue : String
  keywords : List String
deriving DecidableEq, Repr

/-- Source `event_to_dict`. -/
def event_to_dict (e : Event) : EventDict :=
  ⟨e.url, date_str e, e.time_et, e.status, e.title, e.venue, e.keywords⟩

/-- Source `dict_to_event` (the regex match, the group conversions and the
`MONTHS.get` lookup are `dateHdrMatch`; none of the modelled operations can
raise, so the `except` branch is unreachable). -/
def dict_to_event (d : EventDict) : Option Event :=
  let url := norm d.url
  let date := norm d.date
  let time_et := pyUpper (norm d.time_et)
  let status := normalize_status d.status
  let title := norm d.event_title
  let venue := norm d.venue
  let keywords := d.keywords.map norm
  match dateHdrMatch date with
  | none => none
  | some (year, month, day) =>
    some ⟨url, year, month, day, time_et, status, title, venue, keywords⟩

/-! ## Filter predicates -/

/-- Source `is_children_family`. -/
def is_children_family (e : Event) : Bool :=
  e.keywords.any (fun k => pyLower (pyStrip k) == "children's/family")

/-- Model of Python substring containment `needle in haystack`. -/
def containsSub (needle : List Char) : List Char → Bool
  | [] => needle.isEmpty
  | c :: cs => needle.isPrefixOf (c :: cs) || containsSub needle cs

/-- Source `is_library_orientation`. -/
def is_library_orientation (e : Event) : Bool :=
  containsSub ("LIBRARY ORIENTATION TOUR").data (pyUpper e.title).data

/-- Source `is_art_arch_tour`. -/
def is_art_arch_tour (e : Event) : Bool :=
  pyLower (norm e.title) == "art & architecture tour"

/-- Source `is_saturday` (`weekday() == 5`, `False` when the constructor
raises). -/
def is_saturday (e : Event) : Bool :=
  pyWeekdayOpt e.year e.month e.day == some 5

/-- Source `should_track`. -/
def should_track (e : Event) : Bool :=
  if is_library_orientation e then false
  else if is_children_family e then false
  else if is_art_arch_tour e && !is_saturday e then false
  else true

/-- Source `should_notify_as_new_event`. -/
def should_notify_as_new_event (e : Event) : Bool :=
  if is_library_orientation e then false
  else if is_children_family e then false
  else if is_art_arch_tour e then false
  else true

/-- Source `fmt_line`. -/
def fmt_line (e : Event) : String :=
  let status := if e.status == "" then "" else "[" ++ e.status ++ "] "
  pyStrip ("- " ++ when_str e ++ " -- " ++ status ++ e.title)

/-! ## Python dicts as ordered association lists

CPython dicts preserve insertion order; assigning to an existing key keeps
its position and a new key is appended.  `main` builds `current_by_key`
with a dict comprehension and `load_state` assigns into a dict in a loop,
both of which are folds of this insert. -/

/-- Key membership, `k in d`. -/
def keyMem (m : List (String × Event)) (k : String) : Bool :=
  m.any (fun p => p.1 == k)

/-- Assignment `d[k] = v` on the ordered association list. -/
def pyDictInsert (m : List (String × Event)) (k : String) (v : Event) : List (String × Event) :=
  if keyMem m k then m.map (fun p => if p.1 == k then (p.1, v) else p) else m ++ [(k, v)]

/-- Lookup `d.get(k)`. -/
def pyGet (m : List (String × Event)) (k : String) : Option Event :=
  (m.find? (fun p => p.1 == k)).map Prod.snd

/-- Source `current_by_key = {e.key(): e for e in events}`. -/
def current_by_key (evs : List Event) : List (String × Event) :=
  evs.foldl (fun m e => pyDictInsert m e.key e) []

/-- Source `current_tracked` (a dict comprehension over an existing dict
filters its items in order). -/
def current_tracked (evs : List Event) : List (String × Event) :=
  (current_by_key evs).filter (fun p => should_track p.2)

/-- Source `old_tracked`. -/
def old_tracked (old : List (String × Event)) : List (String × Event) :=
  old.filter (fun p => should_track p.2)

/-! ## Sort keys

Source `fetch_events` sorts its output by
`(e.year, e.month, e.day, e.time_et, e.title.lower(), e.url)`; `main`
re-sorts the derived lists by prefixes of that key.  Python compares the
tuples lexicographically, ints by order and strings by code point, which
is the lexicographic product of the component linear orders.  Python's
sorts are stable, and any two stable sorts by the same key agree, so
`List.insertionSort` (stable) models them exactly. -/

/-- The full six-component canonical key (source line `out.sort` in
`fetch_events`). -/
abbrev Key6 := Int ×ₗ Int ×ₗ Int ×ₗ String ×ₗ String ×ₗ String

/-- The five-component key used for `new_events.sort` and the baseline
list. -/
abbrev Key5 := Int ×ₗ Int ×ₗ Int ×ₗ String ×ₗ String

/-- The four-component key used for `reopened_sat_tours.sort`. -/
abbrev Key4 := Int ×ₗ Int ×ₗ Int ×ₗ String

/-- Canonical key of an event. -/
def canonKey (e : Event) : Key6 :=
  toLex (e.year, toLex (e.month, toLex (e.day, toLex (e.time_et, toLex (pyLower e.title, e.url)))))

/-- Key of `new_events.sort` / the baseline sort. -/
def newKey (e : Event) : Key5 :=
  toLex (e.year, toLex (e.month, toLex (e.day, toLex (e.time_et, pyLower e.title))))

/-- Key of `reopened_sat_tours.sort` (on the transition's event). -/
def reoKey (t : Event × String × String) : Key4 :=
  toLex (t.1.year, toLex (t.1.month, toLex (t.1.day, t.1.time_et)))

/-- The canonical event order. -/
def canonLE (a b : Event) : Prop :=
  canonKey a ≤ canonKey b

/-- The five-key order. -/
def newLE (a b : Event) : Prop :=
  newKey a ≤ newKey b

/-- The four-key order on transitions. -/
def reoLE (a b : Event × String × String) : Prop :=
  reoKey a ≤ reoKey b

instance : DecidableRel canonLE :=
  fun a b => inferInstanceAs (Decidable (canonKey a ≤ canonKey b))

instance : DecidableRel newLE :=
  fun a b => inferInstanceAs (Decidable (newKey a ≤ newKey b))

instance : DecidableRel reoLE :=
  fun a b => inferInstanceAs (Decidable (reoKey a ≤ reoKey b))

/-! ## The diff engine (`main`, lines 411-431) -/

/-- Source `new_events` (list comprehension over `current_tracked.items()`
followed by the stable in-place sort). -/
def new_events (evs : List Event) (old : List (String × Event)) : List Event :=
  List.insertionSort newLE
    (((current_tracked evs).filter
        (fun p => !keyMem (old_tracked old) p.1 && should_notify_as_new_event p.2)).map Prod.snd)

/-- Source `reopened_sat_tours`: the append-in-a-loop over
`current_by_key.items()` is a `filterMap`, then the stable sort. -/
def reopened (evs : List Event) (old : List (String × Event)) : List (Event × String × String) :=
  List.insertionSort reoLE
    ((current_by_key evs).filterMap (fun p =>
      if is_art_arch_tour p.2 && is_saturday p.2 then
        match pyGet old p.1 with
        | some prev =>
          let old_status := pyUpper prev.status
          let new_status := pyUpper p.2.status
          if old_status == "SOLD OUT" && !(new_status == "SOLD OUT") then
            some (p.2, old_status, new_status)
          else none
        | none => none
      else none))

/-! ## Notifications (`main`, lines 434-458) -/

/-- Source `baseline_list = sorted(current_tracked.values(), key=...)`. -/
def baselineList (evs : List Event) : List Event :=
  List.insertionSort newLE ((current_tracked evs).map Prod.snd)

/-- The `(title, body)` pair of the baseline notification. -/
def baselineNotification (evs : List Event) : String × String :=
  ("Athenaeum events: baseline",
   joinNl (("Baseline (current matching events): " ++ natStr (baselineList evs).length)
     :: (baselineList evs).map fmt_line))

/-- One rendered line of the reopened section, with `AVAILABLE` substituted
for a falsy (empty) new status. -/
def reopenedLine (t : Event × String × String) : String :=
  "- " ++ when_str t.1 ++ " -- Art & Architecture Tour [" ++ t.2.1 ++ " -> "
    ++ (if t.2.2 == "" then "AVAILABLE" else t.2.2) ++ "]"

/-- The `(title, body)` pair of the update notification. -/
def updateNotification (nevs : List Event) (reo : List (Event × String × String)) :
    String × String :=
  let lines1 :=
    if nevs.isEmpty then []
    else ("New events: " ++ natStr nevs.length) :: nevs.map fmt_line
  let lines2 :=
    if reo.isEmpty then []
    else (if lines1.isEmpty then [] else [""])
      ++ ("Saturday Art & Architecture Tour no longer sold out: " ++ natStr reo.length)
        :: reo.map reopenedLine
  let title_bits :=
    (if nevs.isEmpty then [] else [natStr nevs.length ++ " new"])
      ++ (if reo.isEmpty then [] else [natStr reo.length ++ " tour reopen"])
  ("Athenaeum events: " ++ String.intercalate ", " title_bits, joinNl (lines1 ++ lines2))

/-- The notifications `main` sends, in order (lines 434-458): the baseline
one on a notified first run, then the update one when there is a delta on
a non-first run. -/
def mainNotifications (notify_first_run : Bool) (old_hash : String)
    (old : List (String × Event)) (evs : List Event) : List (String × String) :=
  let first_run := old_hash == ""
  (if first_run && notify_first_run then [baselineNotification evs] else [])
    ++ (if !first_run && (!(new_events evs old).isEmpty || !(reopened evs old).isEmpty) then
          [updateNotification (new_events evs old) (reopened evs old)]
        else [])

/-! ## JSON serialisation (`json.dumps(..., ensure_ascii=False, indent=2)`) -/

/-- Lowercase hex digit. -/
def hexDigit (n : Nat) : Char :=
  if n < 10 then Char.ofNat (48 + n) else Char.ofNat (87 + n)

/-- JSON string-character escaping with `ensure_ascii=False`. -/
def jsonEscChar (c : Char) : List Char :=
  if c = '"' then ['\\', '"']
  else if c = '\\' then ['\\', '\\']
  else if c = '\n' then ['\\', 'n']
  else if c = '\t' then ['\\', 't']
  else if c = '\r' then ['\\', 'r']
  else if c = '\x08' then ['\\', 'b']
  else if c = '\x0c' then ['\\', 'f']
  else if c.toNat < 32 then ['\\', 'u', '0', '0', hexDigit (c.toNat / 16), hexDigit (c.toNat % 16)]
  else [c]

/-- A JSON string literal. -/
def jsonStr (s : String) : String :=
  String.mk ('"' :: (s.data.map jsonEscChar).flatten ++ ['"'])

/-- Indentation prefix at nesting level `n` for `indent=2`. -/
def ind (n : Nat) : String :=
  String.mk (List.replicate (2 * n) ' ')

/-- A JSON array of strings at nesting level `lvl`. -/
def jsonStrList (lvl : Nat) (xs : List String) : String :=
  if xs.isEmpty then "[]"
  else "[\n" ++ String.intercalate ",\n" (xs.map (fun x => ind (lvl + 1) ++ jsonStr x))
    ++ "\n" ++ ind lvl ++ "]"

/-- The JSON object of one serialised event at nesting level `lvl`. -/
def jsonEventDict (lvl : Nat) (d : EventDict) : String :=
  "\x7b\n" ++ String.intercalate ",\n"
    [ind (lvl + 1) ++ jsonStr "url" ++ ": " ++ jsonStr d.url,
     ind (lvl + 1) ++ jsonStr "date" ++ ": " ++ jsonStr d.date,
     ind (lvl + 1) ++ jsonStr "time_et" ++ ": " ++ jsonStr d.time_et,
     ind (lvl + 1) ++ jsonStr "status" ++ ": " ++ jsonStr d.status,
     ind (lvl + 1) ++ jsonStr "event_title" ++ ": " ++ jsonStr d.event_title,
     ind (lvl + 1) ++ jsonStr "venue" ++ ": " ++ jsonStr d.venue,
     ind (lvl + 1) ++ jsonStr "keywords" ++ ": " ++ jsonStrList (lvl + 1) d.keywords]
    ++ "\n" ++ ind lvl ++ "\x7d"

/-- Source `blob = json.dumps(payload_items, ensure_ascii=False, indent=2)`
where `payload_items = [event_to_dict(e) for e in events]`; `write_outputs`
writes the identical serialisation to the pretty file. -/
def jsonDumpsItems (evs : List Event) : String :=
  let ds := evs.map event_to_dict
  if ds.isEmpty then "[]"
  else "[\n" ++ String.intercalate ",\n" (ds.map (fun d => ind 1 ++ jsonEventDict 1 d)) ++ "\n]"

/-- The serialised state payload written by `save_state`. -/
def stateJson (now : String) (evs : List Event) (h : String) : String :=
  "\x7b\n" ++ String.intercalate ",\n"
    [ind 1 ++ jsonStr "app" ++ ": " ++ jsonStr "ath-events",
     ind 1 ++ jsonStr "checked_at" ++ ": " ++ jsonStr now,
     ind 1 ++ jsonStr "url" ++ ": " ++ jsonStr "https://events.bostonathenaeum.org/en/",
     ind 1 ++ jsonStr "hash" ++ ": " ++ jsonStr h,
     ind 1 ++ jsonStr "items" ++ ": "
       ++ (if evs.isEmpty then "[]"
           else "[\n" ++ String.intercalate ",\n"
             ((evs.map event_to_dict).map (fun d => ind 2 ++ jsonEventDict 2 d))
             ++ "\n" ++ ind 1 ++ "]")]
    ++ "\n\x7d"

/-- One line of the Markdown mirror (`write_outputs`). -/
def mdLine (e : Event) : String :=
  let kw := if e.keywords.isEmpty then "" else " (" ++ String.intercalate ", " e.keywords ++ ")"
  let status := if e.status == "" then "" else "[" ++ e.status ++ "] "
  pyStrip ("- " ++ when_str e ++ " -- " ++ status ++ e.title ++ kw)

/-- The Markdown document written by `write_outputs`. -/
def mdText (evs : List Event) : String :=
  joinNl ("# Boston Athenaeum events\n" :: evs.map mdLine) ++ "\n"

/-! ## Persistence (`load_state`, `save_state`, `write_outputs`, tail of `main`) -/

/-- The contents of the three files the script writes, `none` before any
write. -/
structure FS where
  state : Option String
  pretty : Option String
  md : Option String
deriving DecidableEq, Repr

/-- Source `save_state`: overwrite the state file with the full payload. -/
def save_state (fs : FS) (now : String) (evs : List Event) (h : String) : FS :=
  { fs with state := some (stateJson now evs h) }

/-- Source `write_outputs`: regenerate both mirrors from the full event
list. -/
def write_outputs (fs : FS) (evs : List Event) : FS :=
  { fs with pretty := some (jsonDumpsItems evs), md := some (mdText evs) }

/-- Tail of `main` (lines 460-478), parametric in the digest function `H`
standing for SHA-256 of the UTF-8 blob: the hash is `H` of the canonical
serialisation of the events alone (the timestamp `now` is not part of its
input).  Returns the final file system and the printed lines. -/
def mainPersist (H : String → String) (now : String) (old_hash : String)
    (old : List (String × Event)) (evs : List Event) (notify_first_run : Bool)
    (fs : FS) : FS × List String :=
  let h := H (jsonDumpsItems evs)
  let first_run := old_hash == ""
  if !first_run && !(old_hash == "") && h == old_hash then
    (fs, ["State: state.json", "Items found: " ++ natStr evs.length,
          "Status: no changes (not rewriting state.json)"])
  else
    let fs1 := write_outputs (save_state fs now evs h) evs
    let status :=
      if first_run then
        "Status: first run (baseline created"
          ++ (if notify_first_run then ", notified)" else ", no notification)")
      else if !(new_events evs old).isEmpty || !(reopened evs old).isEmpty then
        "Status: notified and state updated"
      else "Status: no relevant changes (state updated because payload changed)"
    (fs1, ["State: state.json", "Items found: " ++ natStr evs.length, status])

/-- One entry of the persisted `items` array as `load_state` sees it: a
JSON value that is not an object is skipped by the `isinstance` guard. -/
inductive StoredItem where
  | junk : StoredItem
  | record : EventDict → StoredItem
deriving DecidableEq, Repr

/-- A state file whose JSON parsed into an object: an optional `hash`
string (a missing or null field reads as `""`) and the `items` array. -/
structure StoredState where
  hash : Option String
  items : List StoredItem
deriving DecidableEq, Repr

/-- What `load_state` can encounter: no file, a file whose read or JSON
parse raises (the `except` branch), or a parsed state object. -/
inductive LoadInput where
  | absent : LoadInput
  | unreadable : LoadInput
  | state : StoredState → LoadInput
deriving DecidableEq, Repr

/-- Source `load_state`. -/
def load_state : LoadInput → String × List (String × Event)
  | .absent => ("", [])
  | .unreadable => ("", [])
  | .state s =>
    (s.hash.getD "",
     s.items.foldl (fun out it =>
       match it with
       | .junk => out
       | .record d =>
         match dict_to_event d with
         | some e => if !(e.url == "") then pyDictInsert out e.key e else out
         | none => out) [])

/-! ## Spec-side and scenario definitions -/

/-- The Tracked predicate exactly as the spec's claim words it: excluded
iff the title contains the orientation phrase case-insensitively, or some
keyword *equals* `"Children's/Family"` case-insensitively (no whitespace
trimming), or the event is a non-Saturday occurrence of the recurring
tour.  Stated for comparison with the source's `should_track`. -/
def trackedSpec (e : Event) : Bool :=
  !(is_library_orientation e
    || e.keywords.any (fun k => pyLower k == "children's/family")
    || (is_art_arch_tour e && !is_saturday e))

/-- The previous map of the reopened-tour scenario: the same event set,
except that event `e`'s status was `"SOLD OUT"`. -/
def soldOutPrev (evs : List Event) (e : Event) : List (String × Event) :=
  evs.map (fun x => (x.key, if x.key == e.key then { x with status := "SOLD OUT" } else x))

/-! ## Helper lemmas: strings and character lists -/

theorem data_append (s t : String) : (s ++ t).data = s.data ++ t.data :=
  rfl

theorem mk_data (l : List Char) : (String.mk l).data = l :=
  rfl

theorem pyIsSpace_cases {c : Char} (h : pyIsSpace c = true) :
    c = ' ' ∨ c = '\t' ∨ c = '\n' ∨ c = '\r' ∨ c = '\x0b' ∨ c = '\x0c' := by
  have h2 := h
  simp [pyIsSpace] at h2
  tauto

theorem isDigit_not_space {c : Char} (hd : c.isDigit = true) : pyIsSpace c = false := by
  by_contra h
  rcases pyIsSpace_cases (by simpa using h) with rfl | rfl | rfl | rfl | rfl | rfl <;>
    exact absurd hd (by decide)

theorem squashWs_cons_nonspace (c : Char) (cs : List Char) (h : pyIsSpace c = false) :
    squashWs (c :: cs) = c :: squashWs cs := by
  simp [squashWs, squashStep, h]

theorem squashWs_append_nonspace (xs ys : List Char) (h : ∀ c ∈ xs, pyIsSpace c = false) :
    squashWs (xs ++ ys) = xs ++ squashWs ys := by
  induction xs with
  | nil => simp
  | cons c tl ih =>
    rw [List.cons_append, squashWs_cons_nonspace c _ (h c (by simp)), ih]
    · rfl
    · exact fun x hx => h x (by simp [hx])

theorem squashWs_all_nonspace (xs : List Char) (h : ∀ c ∈ xs, pyIsSpace c = false) :
    squashWs xs = xs := by
  simpa [squashWs] using squashWs_append_nonspace xs [] h

theorem squashWs_space_cons (c : Char) (cs : List Char) (hc : pyIsSpace c = true)
    (hd : ∀ x ∈ (squashWs cs).head?, x ≠ ' ') :
    squashWs (c :: cs) = ' ' :: squashWs cs := by
  show squashStep c (squashWs cs) = ' ' :: squashWs cs
  unfold squashStep
  rw [if_pos hc]
  cases hsq : squashWs cs with
  | nil => rfl
  | cons d tl =>
    have : d ≠ ' ' := hd d (by rw [hsq]; rfl)
    cases d <;> simp_all [squashStep]

theorem dropWhile_head_not (p : Char → Bool) (cs : List Char)
    (h : ∀ c ∈ cs.head?, p c = false) : cs.dropWhile p = cs := by
  cases cs with
  | nil => rfl
  | cons c tl => simp_all [List.dropWhile]

theorem pyStripL_eq_self (cs : List Char) (h1 : ∀ c ∈ cs.head?, pyIsSpace c = false)
    (h2 : ∀ c ∈ cs.getLast?, pyIsSpace c = false) : pyStripL cs = cs := by
  unfold pyStripL
  rw [dropWhile_head_not _ _ h1, dropWhile_head_not, List.reverse_reverse]
  intro c hc
  exact h2 c (by rwa [List.head?_reverse] at hc)

theorem takeWhile_append_stop (p : Char → Bool) (xs : List Char) (y : Char) (ys : List Char)
    (hxs : ∀ c ∈ xs, p c = true) (hy : p y = false) :
    (xs ++ y :: ys).takeWhile p = xs := by
  induction xs with
  | nil => simp [List.takeWhile, hy]
  | cons c tl ih =>
    have hc := hxs c (by simp)
    have ih2 := ih (fun x hx => hxs x (by simp [hx]))
    simp [List.takeWhile_cons, hc, ih2]

theorem dropWhile_append_stop (p : Char → Bool) (xs : List Char) (y : Char) (ys : List Char)
    (hxs : ∀ c ∈ xs, p c = true) (hy : p y = false) :
    (xs ++ y :: ys).dropWhile p = y :: ys := by
  induction xs with
  | nil => simp [List.dropWhile, hy]
  | cons c tl ih =>
    simp only [List.cons_append, List.dropWhile_cons, hxs c (by simp)]
    exact ih (fun x hx => hxs x (by simp [hx]))

theorem takeWhile_all_eq (p : Char → Bool) (xs : List Char) (hxs : ∀ c ∈ xs, p c = true) :
    xs.takeWhile p = xs := by
  induction xs with
  | nil => rfl
  | cons c tl ih =>
    have hc := hxs c (by simp)
    have ih2 := ih (fun x hx => hxs x (by simp [hx]))
    simp [List.takeWhile_cons, hc, ih2]

theorem dropWhile_all_eq (p : Char → Bool) (xs : List Char) (hxs : ∀ c ∈ xs, p c = true) :
    xs.dropWhile p = [] := by
  induction xs with
  | nil => rfl
  | cons c tl ih =>
    simp only [List.dropWhile_cons, hxs c (by simp)]
    exact ih (fun x hx => hxs x (by simp [hx]))

/-! ## Helper lemmas: decimal printing -/

theorem natOfDigits_append_one (ds : List Char) (c : Char) :
    natOfDigits (ds ++ [c]) = 10 * natOfDigits ds + digitVal c := by
  simp [natOfDigits, List.foldl_append]

theorem natDigitsGo_spec : ∀ f n : Nat, n < f →
    (∀ c ∈ natDigitsGo f n, c.isDigit = true)
      ∧ natOfDigits (natDigitsGo f n) = n ∧ natDigitsGo f n ≠ [] := by
  intro f
  induction f with
  | zero => omega
  | succ f ih =>
    intro n hn
    by_cases h10 : n < 10
    · have hdig : (Char.ofNat (48 + n)).isDigit = true ∧ digitVal (Char.ofNat (48 + n)) = n := by
        interval_cases n <;> exact ⟨by decide, by decide⟩
      refine ⟨?_, ?_, by simp [natDigitsGo, h10]⟩
      · intro c hc
        simp [natDigitsGo, h10] at hc
        subst hc; exact hdig.1
      · simp only [natDigitsGo, h10, if_pos]
        show natOfDigits [Char.ofNat (48 + n)] = n
        simpa [natOfDigits, digitVal] using hdig.2
    · have hdiv : n / 10 < f := by
        have := Nat.div_lt_self (show 0 < n by omega) (show 1 < 10 by omega)
        omega
      obtain ⟨ihd, ihr, ihne⟩ := ih (n / 10) hdiv
      have hm : n % 10 < 10 := Nat.mod_lt _ (by omega)
      have hdig : (Char.ofNat (48 + n % 10)).isDigit = true
          ∧ digitVal (Char.ofNat (48 + n % 10)) = n % 10 := by
        set m := n % 10 with hmdef
        interval_cases m <;> exact ⟨by decide, by decide⟩
      refine ⟨?_, ?_, by simp [natDigitsGo, h10]⟩
      · intro c hc
        simp only [natDigitsGo, h10, if_neg, ite_false, List.mem_append, List.mem_singleton] at hc
        rcases hc with hc | hc
        · exact ihd c hc
        · subst hc; exact hdig.1
      · simp only [natDigitsGo, h10, ite_false]
        rw [natOfDigits_append_one, ihr, hdig.2]
        omega

theorem natDigits_spec (n : Nat) :
    (∀ c ∈ natDigits n, c.isDigit = true) ∧ natOfDigits (natDigits n) = n ∧ natDigits n ≠ [] :=
  natDigitsGo_spec (n + 1) n (by omega)

theorem natDigitsGo_len : ∀ f n : Nat, n < f →
    (n ≤ 9 → (natDigitsGo f n).length = 1)
      ∧ (10 ≤ n → n ≤ 99 → (natDigitsGo f n).length = 2)
      ∧ (100 ≤ n → n ≤ 999 → (natDigitsGo f n).length = 3)
      ∧ (1000 ≤ n → n ≤ 9999 → (natDigitsGo f n).length = 4) := by
  intro f
  induction f with
  | zero => omega
  | succ f ih =>
    intro n hn
    refine ⟨fun h9 => ?_, fun hlo hhi => ?_, fun hlo hhi => ?_, fun hlo hhi => ?_⟩
    · simp [natDigitsGo, Nat.lt_succ_of_le h9, show n < 10 by omega]
    all_goals
      have hdiv : n / 10 < f := by
        have := Nat.div_lt_self (show 0 < n by omega) (show 1 < 10 by omega)
        omega
      simp only [natDigitsGo, show ¬ n < 10 by omega, ite_false, List.length_append,
        List.length_singleton]
      obtain ⟨l1, l2, l3, l4⟩ := ih (n / 10) hdiv
    · rw [l1 (by omega)]
    · rw [l2 (by omega) (by omega)]
    · rw [l3 (by omega) (by omega)]

theorem natDigits_len_le2 {n : Nat} (h : n ≤ 99) : 1 ≤ (natDigits n).length ∧ (natDigits n).length ≤ 2 := by
  obtain ⟨l1, l2, _, _⟩ := natDigitsGo_len (n + 1) n (by omega)
  by_cases h10 : n ≤ 9
  · rw [natDigits, l1 h10]; omega
  · rw [natDigits, l2 (by omega) h]; omega

theorem natDigits_len4 {n : Nat} (hlo : 1000 ≤ n) (hhi : n ≤ 9999) : (natDigits n).length = 4 := by
  obtain ⟨_, _, _, l4⟩ := natDigitsGo_len (n + 1) n (by omega)
  exact l4 hlo hhi

/-! ## Helper lemmas: the date-header round trip -/

theorem month_facts (m : Int) (h1 : 1 ≤ m) (h2 : m ≤ 12) :
    (∀ tail : List Char, matchMonth MONTHS ((MONTH_BY_NUM m).data ++ tail) = some (m, tail))
      ∧ (MONTH_BY_NUM m).data ≠ []
      ∧ (∀ c ∈ (MONTH_BY_NUM m).data, pyIsSpace c = false) := by
  interval_cases m <;> exact ⟨fun tail => rfl, by decide, by decide⟩

theorem dateHdrMatch_generic (nameCs : List Char) (m : Int)
    (hmatch : ∀ tail : List Char, matchMonth MONTHS (nameCs ++ tail) = some (m, tail))
    (hne : nameCs ≠ [])
    (hhead : ∀ c ∈ nameCs, pyIsSpace c = false)
    (dds yds : List Char)
    (hd : ∀ c ∈ dds, c.isDigit = true) (hdl1 : 1 ≤ dds.length) (hdl2 : dds.length ≤ 2)
    (hy : ∀ c ∈ yds, c.isDigit = true) (hyl : yds.length = 4) :
    dateHdrMatch (String.mk (nameCs ++ ' ' :: (dds ++ ',' :: ' ' :: yds)))
      = some ((natOfDigits yds : Int), m, (natOfDigits dds : Int)) := by
  obtain ⟨d0, dtl, rfl⟩ : ∃ a l, dds = a :: l := by
    cases dds with
    | nil => simp at hdl1
    | cons a l => exact ⟨a, l, rfl⟩
  obtain ⟨y0, ytl, rfl⟩ : ∃ a l, yds = a :: l := by
    cases yds with
    | nil => simp at hyl
    | cons a l => exact ⟨a, l, rfl⟩
  have hd0 : pyIsSpace d0 = false := isDigit_not_space (hd d0 (by simp))
  have hy0 : pyIsSpace y0 = false := isDigit_not_space (hy y0 (by simp))
  have e1 : (nameCs ++ ' ' :: ((d0 :: dtl) ++ ',' :: ' ' :: (y0 :: ytl))).dropWhile pyIsSpace
      = nameCs ++ ' ' :: ((d0 :: dtl) ++ ',' :: ' ' :: (y0 :: ytl)) := by
    cases nameCs with
    | nil => exact absurd rfl hne
    | cons c0 ctl =>
      refine dropWhile_head_not _ _ ?_
      intro c hc
      simp only [List.cons_append, List.head?_cons, Option.mem_def, Option.some.injEq] at hc
      cases hc
      exact hhead c0 (by simp)
  have e3 : ((d0 :: dtl) ++ ',' :: ' ' :: (y0 :: ytl)).dropWhile pyIsSpace
      = (d0 :: dtl) ++ ',' :: ' ' :: (y0 :: ytl) := by
    refine dropWhile_head_not _ _ ?_
    intro c hc
    simp only [List.cons_append, List.head?_cons, Option.mem_def, Option.some.injEq] at hc
    subst hc
    exact hd0
  have e4 : ((d0 :: dtl) ++ ',' :: ' ' :: (y0 :: ytl)).takeWhile Char.isDigit = d0 :: dtl :=
    takeWhile_append_stop _ _ _ _ hd (by decide)
  have e5 : ((d0 :: dtl) ++ ',' :: ' ' :: (y0 :: ytl)).dropWhile Char.isDigit
      = ',' :: ' ' :: (y0 :: ytl) :=
    dropWhile_append_stop _ _ _ _ hd (by decide)
  have e6 : (' ' :: (y0 :: ytl)).dropWhile pyIsSpace = y0 :: ytl := by
    rw [List.dropWhile_cons]
    simp only [show pyIsSpace ' ' = true from rfl, if_true]
    exact dropWhile_head_not _ _ (by simp [hy0])
  have e7 : (y0 :: ytl).takeWhile Char.isDigit = y0 :: ytl := takeWhile_all_eq _ _ hy
  have e8 : (y0 :: ytl).dropWhile Char.isDigit = [] := dropWhile_all_eq _ _ hy
  have e9 : (decide (1 ≤ (d0 :: dtl).length) && decide ((d0 :: dtl).length ≤ 2)) = true := by
    simp only [Bool.and_eq_true, decide_eq_true_eq]
    omega
  simp only [dateHdrMatch, mk_data]
  rw [e1, hmatch]
  simp only [show pyIsSpace ' ' = true from rfl, if_true]
  rw [e3, e4, e5, e9]
  simp only [if_true]
  rw [e6, e7, e8]
  simp only [hyl, List.dropWhile_nil, List.isEmpty_nil, Bool.and_true, decide_eq_true_eq]
  simp

/-- The character-list shape of `date_str` for an in-range date, before
stripping. -/
theorem date_str_data (e : Event) (hm1 : 1 ≤ e.month) (hm2 : e.month ≤ 12)
    (hd : 0 ≤ e.day) (hy : 0 ≤ e.year) :
    (MONTH_BY_NUM e.month ++ " " ++ pyIntRepr e.day ++ ", " ++ pyIntRepr e.year).data
      = (MONTH_BY_NUM e.month).data
          ++ ' ' :: (natDigits e.day.toNat ++ ',' :: ' ' :: natDigits e.year.toNat) := by
  rw [data_append, data_append, data_append, data_append]
  rw [show pyIntRepr e.day = String.mk (natDigits e.day.toNat) by
        unfold pyIntRepr
        rw [if_neg (by omega)]]
  rw [show pyIntRepr e.year = String.mk (natDigits e.year.toNat) by
        unfold pyIntRepr
        rw [if_neg (by omega)]]
  simp [mk_data]

/-- The squashed and stripped date string is itself: `norm` and the final
`strip` of `date_str` are no-ops on well-formed date strings. -/
theorem date_list_fix (nameCs dds yds : List Char)
    (hname : ∀ c ∈ nameCs, pyIsSpace c = false) (hne : nameCs ≠ [])
    (hd : ∀ c ∈ dds, c.isDigit = true) (hdne : dds ≠ [])
    (hy : ∀ c ∈ yds, c.isDigit = true) (hyne : yds ≠ []) :
    squashWs (nameCs ++ ' ' :: (dds ++ ',' :: ' ' :: yds))
        = nameCs ++ ' ' :: (dds ++ ',' :: ' ' :: yds)
      ∧ pyStripL (nameCs ++ ' ' :: (dds ++ ',' :: ' ' :: yds))
        = nameCs ++ ' ' :: (dds ++ ',' :: ' ' :: yds) := by
  obtain ⟨d0, dtl, rfl⟩ : ∃ a l, dds = a :: l := by
    cases dds with
    | nil => exact absurd rfl hdne
    | cons a l => exact ⟨a, l, rfl⟩
  obtain ⟨y0, ytl, rfl⟩ : ∃ a l, yds = a :: l := by
    cases yds with
    | nil => exact absurd rfl hyne
    | cons a l => exact ⟨a, l, rfl⟩
  have hd0 : pyIsSpace d0 = false := isDigit_not_space (hd d0 (by simp))
  have hy0 : pyIsSpace y0 = false := isDigit_not_space (hy y0 (by simp))
  have hsq_y : squashWs (y0 :: ytl) = y0 :: ytl :=
    squashWs_all_nonspace _ (fun c hc => isDigit_not_space (hy c hc))
  have hhead_y : ∀ x ∈ (squashWs (y0 :: ytl)).head?, x ≠ ' ' := by
    rw [hsq_y]
    intro x hx
    simp only [List.head?_cons, Option.mem_def, Option.some.injEq] at hx
    subst hx
    intro hsp
    rw [hsp] at hy0
    exact absurd hy0 (by decide)
  have hsq_sp_y : squashWs (' ' :: (y0 :: ytl)) = ' ' :: (y0 :: ytl) := by
    rw [squashWs_space_cons _ _ (by rfl) hhead_y, hsq_y]
  have hsq_tail : squashWs ((d0 :: dtl) ++ ',' :: ' ' :: (y0 :: ytl))
      = (d0 :: dtl) ++ ',' :: ' ' :: (y0 :: ytl) := by
    rw [squashWs_append_nonspace _ _ (fun c hc => isDigit_not_space (hd c hc))]
    rw [squashWs_cons_nonspace _ _ (by decide)]
    rw [hsq_sp_y]
  have hhead_d : ∀ x ∈ (squashWs ((d0 :: dtl) ++ ',' :: ' ' :: (y0 :: ytl))).head?, x ≠ ' ' := by
    rw [hsq_tail]
    intro x hx
    simp only [List.cons_append, List.head?_cons, Option.mem_def, Option.some.injEq] at hx
    subst hx
    intro hsp
    rw [hsp] at hd0
    exact absurd hd0 (by decide)
  have hsq : squashWs (nameCs ++ ' ' :: ((d0 :: dtl) ++ ',' :: ' ' :: (y0 :: ytl)))
      = nameCs ++ ' ' :: ((d0 :: dtl) ++ ',' :: ' ' :: (y0 :: ytl)) := by
    rw [squashWs_append_nonspace _ _ hname]
    rw [squashWs_space_cons _ _ (by rfl) hhead_d, hsq_tail]
  refine ⟨hsq, ?_⟩
  refine pyStripL_eq_self _ ?_ ?_
  · intro c hc
    cases nameCs with
    | nil => exact absurd rfl hne
    | cons c0 ctl =>
      simp only [List.cons_append, List.head?_cons, Option.mem_def, Option.some.injEq] at hc
      cases hc
      exact hname _ (by simp)
  · intro c hc
    have hre : nameCs ++ ' ' :: ((d0 :: dtl) ++ ',' :: ' ' :: (y0 :: ytl))
        = (nameCs ++ ' ' :: (d0 :: dtl) ++ [','] ++ [' ']) ++ (y0 :: ytl) := by
      simp
    rw [hre, List.getLast?_append_of_ne_nil _ (by simp)] at hc
    have hcmem : c ∈ y0 :: ytl := by
      rcases List.mem_getLast?_eq_getLast hc with ⟨hne2, rfl⟩
      exact List.getLast_mem hne2
    exact isDigit_not_space (hy c hcmem)

theorem daysInMonth_le31 (y m : Nat) : daysInMonth y m ≤ 31 := by
  unfold daysInMonth
  split
  · split <;> omega
  · split <;> omega

theorem validDate_bounds {y m d : Int} (hv : validDate y m d = true) :
    1 ≤ y ∧ y ≤ 9999 ∧ 1 ≤ m ∧ m ≤ 12 ∧ 1 ≤ d ∧ d ≤ 31 := by
  simp only [validDate, Bool.and_eq_true, decide_eq_true_eq] at hv
  obtain ⟨⟨⟨⟨⟨h1, h2⟩, h3⟩, h4⟩, h5⟩, h6⟩ := hv
  have := daysInMonth_le31 y.toNat m.toNat
  omega

/-- Main round-trip engine: the strict pattern re-parses `date_str` (and
its `norm`) to the stored date. -/
theorem parse_date_str_round (e : Event) (hv : validDate e.year e.month e.day = true)
    (hy4 : 1000 ≤ e.year) :
    parse_date_header (date_str e) = some (e.year, e.month, e.day) := by
  obtain ⟨hy1, hy2, hm1, hm2, hd1, hd2⟩ := validDate_bounds hv
  obtain ⟨hmatch, hnne, hnsp⟩ := month_facts e.month hm1 hm2
  obtain ⟨hddig, hdrt, hdne⟩ := natDigits_spec e.day.toNat
  obtain ⟨hydig, hyrt, hyne⟩ := natDigits_spec e.year.toNat
  obtain ⟨hdl1, hdl2⟩ := natDigits_len_le2 (show e.day.toNat ≤ 99 by omega)
  have hyl : (natDigits e.year.toNat).length = 4 :=
    natDigits_len4 (by omega) (by omega)
  have hshape := date_str_data e hm1 hm2 (by omega) (by omega)
  obtain ⟨hsq, hstr⟩ :=
    date_list_fix (MONTH_BY_NUM e.month).data (natDigits e.day.toNat) (natDigits e.year.toNat)
      hnsp hnne hddig hdne hydig hyne
  have hds : date_str e
      = String.mk ((MONTH_BY_NUM e.month).data
          ++ ' ' :: (natDigits e.day.toNat ++ ',' :: ' ' :: natDigits e.year.toNat)) := by
    unfold date_str pyStrip
    rw [hshape, hstr]
  have hnorm : norm (date_str e)
      = String.mk ((MONTH_BY_NUM e.month).data
          ++ ' ' :: (natDigits e.day.toNat ++ ',' :: ' ' :: natDigits e.year.toNat)) := by
    rw [hds]
    unfold norm
    rw [mk_data, hsq, hstr]
  have hparse := dateHdrMatch_generic (MONTH_BY_NUM e.month).data e.month hmatch hnne hnsp
    (natDigits e.day.toNat) (natDigits e.year.toNat) hddig hdl1 hdl2 hydig hyl
  unfold parse_date_header
  rw [hnorm, hparse, hdrt, hyrt]
  congr 1
  have hyy : (e.year.toNat : Int) = e.year := Int.toNat_of_nonneg (by omega)
  have hdd : (e.day.toNat : Int) = e.day := Int.toNat_of_nonneg (by omega)
  rw [hyy, hdd]

/-- C7: for every valid calendar date with a four-digit year (month in the
twelve-name table, day of one or two digits), parsing the serialised
`"MONTH_NAME DAY, YEAR"` string with the strict header pattern reproduces
the original `(year, month, day)` triple. -/
theorem claim_C7 (e : Event) (hv : validDate e.year e.month e.day = true)
    (hy4 : 1000 ≤ e.year) :
    parse_date_header (date_str e) = some (e.year, e.month, e.day) :=
  parse_date_str_round e hv hy4

/-- Witness for C7 at the date 2026-02-25. -/
theorem claim_C7_witness :
    validDate 2026 2 25 = true ∧ (1000 : Int) ≤ 2026
      ∧ parse_date_header (date_str ⟨"u", 2026, 2, 25, "", "", "T", "", []⟩)
          = some (2026, 2, 25) :=
  ⟨by decide, by decide, claim_C7 ⟨"u", 2026, 2, 25, "", "", "T", "", []⟩ (by decide) (by decide)⟩

/-- C10: an event whose fields are already in normalised form (and whose
date is a valid calendar date with a four-digit year) round-trips through
`event_to_dict` / `dict_to_event`. -/
theorem claim_C10 (e : Event)
    (hv : validDate e.year e.month e.day = true) (hy4 : 1000 ≤ e.year)
    (hurl : norm e.url = e.url) (htitle : norm e.title = e.title)
    (hvenue : norm e.venue = e.venue)
    (htime : norm e.time_et = e.time_et) (htimeU : pyUpper e.time_et = e.time_et)
    (hstatus : normalize_status e.status = e.status)
    (hkw : e.keywords.map norm = e.keywords) :
    dict_to_event (event_to_dict e) = some e := by
  have hp : dateHdrMatch (norm (date_str e)) = some (e.year, e.month, e.day) :=
    parse_date_str_round e hv hy4
  unfold dict_to_event event_to_dict
  simp only []
  rw [hp]
  rw [hurl, htitle, hvenue, htime, htimeU, hstatus, hkw]

/-- Witness for C10 at a fully normalised concrete event. -/
theorem claim_C10_witness :
    dict_to_event (event_to_dict
        ⟨"https://events.bostonathenaeum.org/en/x", 2026, 2, 28, "6:00 PM", "SOLD OUT",
         "Art & Architecture Tour", "Long Room", ["Tours"]⟩)
      = some ⟨"https://events.bostonathenaeum.org/en/x", 2026, 2, 28, "6:00 PM", "SOLD OUT",
         "Art & Architecture Tour", "Long Room", ["Tours"]⟩ :=
  claim_C10 _ (by decide) (by decide) (by decide) (by decide) (by decide) (by decide)
    (by decide) (by decide) (by decide)

/-! ## The report-line contract -/

theorem str_ext {s t : String} (h : s.data = t.data) : s = t :=
  congrArg String.mk h

theorem mk_data_eta (s : String) : String.mk s.data = s :=
  rfl

theorem pyStrip_eq_self (s : String) (h1 : ∀ c ∈ s.data.head?, pyIsSpace c = false)
    (h2 : ∀ c ∈ s.data.getLast?, pyIsSpace c = false) : pyStrip s = s := by
  unfold pyStrip
  rw [pyStripL_eq_self _ h1 h2]

theorem weekday_abbrev_mem (y m d : Int) (hv : validDate y m d = true) :
    weekday_abbrev y m d ∈ (["Mon", "Tue", "Wed", "Thu", "Fri", "Sat", "Sun"] : List String) := by
  unfold weekday_abbrev pyWeekdayOpt
  rw [if_pos hv]
  have h7 : (toOrdinal y.toNat m.toNat d.toNat + 6) % 7 < 7 := Nat.mod_lt _ (by omega)
  set w := (toOrdinal y.toNat m.toNat d.toNat + 6) % 7 with hw
  interval_cases w <;> simp

theorem when_str_spec (e : Event) (hv : validDate e.year e.month e.day = true) :
    when_str e
      = MONTH_BY_NUM e.month ++ " " ++ pyIntRepr e.day ++ " ("
          ++ weekday_abbrev e.year e.month e.day ++ ")"
          ++ (if e.time_et == "" then "" else " " ++ e.time_et ++ " ET") := by
  obtain ⟨_, _, hm1, hm2, _, _⟩ := validDate_bounds hv
  obtain ⟨_, hnne, hnsp⟩ := month_facts e.month hm1 hm2
  have hstrip : pyStrip (MONTH_BY_NUM e.month ++ " " ++ pyIntRepr e.day ++ " ("
      ++ weekday_abbrev e.year e.month e.day ++ ")")
      = MONTH_BY_NUM e.month ++ " " ++ pyIntRepr e.day ++ " ("
        ++ weekday_abbrev e.year e.month e.day ++ ")" := by
    refine pyStrip_eq_self _ ?_ ?_
    · intro c hc
      simp only [data_append] at hc
      cases hmon : (MONTH_BY_NUM e.month).data with
      | nil => exact absurd hmon hnne
      | cons c0 ctl =>
        rw [hmon] at hc
        simp only [List.cons_append, List.head?_cons, Option.mem_def, Option.some.injEq] at hc
        exact hc ▸ hnsp c0 (by rw [hmon]; simp)
    · intro c hc
      rw [data_append] at hc
      rw [List.getLast?_append_of_ne_nil _ (by decide)] at hc
      simp only [show ((")" : String).data.getLast? = some ')') from rfl,
        Option.mem_def, Option.some.injEq] at hc
      exact hc ▸ (by decide)
  unfold when_str
  simp only []
  rw [hstrip]
  cases htime : (e.time_et == "") with
  | true => refine str_ext ?_; simp [data_append]
  | false => refine str_ext ?_; simp [data_append]

/-- C9: the formatted report line follows the documented template, with the
time segment and `" ET"` omitted exactly when the time label is empty and
the bracketed status omitted exactly when the status is empty, and the
three-letter weekday computed from the stored date is one of the seven
day names. -/
theorem claim_C9 (e : Event) (hv : validDate e.year e.month e.day = true)
    (ht : e.title.data ≠ []) (htl : ∀ c ∈ e.title.data.getLast?, pyIsSpace c = false) :
    fmt_line e
      = "- " ++ MONTH_BY_NUM e.month ++ " " ++ pyIntRepr e.day ++ " ("
          ++ weekday_abbrev e.year e.month e.day ++ ")"
          ++ (if e.time_et == "" then "" else " " ++ e.time_et ++ " ET")
          ++ " -- " ++ (if e.status == "" then "" else "[" ++ e.status ++ "] ") ++ e.title
      ∧ weekday_abbrev e.year e.month e.day
          ∈ (["Mon", "Tue", "Wed", "Thu", "Fri", "Sat", "Sun"] : List String) := by
  refine ⟨?_, weekday_abbrev_mem _ _ _ hv⟩
  unfold fmt_line
  simp only []
  rw [when_str_spec e hv]
  have hstrip : pyStrip ("- "
      ++ (MONTH_BY_NUM e.month ++ " " ++ pyIntRepr e.day ++ " ("
          ++ weekday_abbrev e.year e.month e.day ++ ")"
          ++ (if e.time_et == "" then "" else " " ++ e.time_et ++ " ET"))
      ++ " -- " ++ (if e.status == "" then "" else "[" ++ e.status ++ "] ") ++ e.title)
      = "- "
      ++ (MONTH_BY_NUM e.month ++ " " ++ pyIntRepr e.day ++ " ("
          ++ weekday_abbrev e.year e.month e.day ++ ")"
          ++ (if e.time_et == "" then "" else " " ++ e.time_et ++ " ET"))
      ++ " -- " ++ (if e.status == "" then "" else "[" ++ e.status ++ "] ") ++ e.title := by
    refine pyStrip_eq_self _ ?_ ?_
    · intro c hc
      simp only [data_append, show ("- " : String).data = ['-', ' '] from rfl,
        List.cons_append, List.head?_cons, Option.mem_def, Option.some.injEq] at hc
      exact hc ▸ (by decide)
    · intro c hc
      rw [data_append] at hc
      rw [List.getLast?_append_of_ne_nil _ ht] at hc
      exact htl c hc
  rw [hstrip]
  refine str_ext ?_
  simp [data_append]

/-- Witness for C9: a concrete event with time and status present. -/
theorem claim_C9_witness :
    fmt_line ⟨"u", 2026, 2, 28, "6:00 PM", "SOLD OUT", "Art & Architecture Tour", "", []⟩
      = "- " ++ MONTH_BY_NUM 2 ++ " " ++ pyIntRepr 28 ++ " (" ++ weekday_abbrev 2026 2 28 ++ ")"
          ++ (if ("6:00 PM" == "") = true then "" else " " ++ "6:00 PM" ++ " ET")
          ++ " -- " ++ (if ("SOLD OUT" == "") = true then "" else "[" ++ "SOLD OUT" ++ "] ")
          ++ "Art & Architecture Tour"
      ∧ weekday_abbrev 2026 2 28
          ∈ (["Mon", "Tue", "Wed", "Thu", "Fri", "Sat", "Sun"] : List String) :=
  claim_C9 ⟨"u", 2026, 2, 28, "6:00 PM", "SOLD OUT", "Art & Architecture Tour", "", []⟩
    (by decide) (by decide) (by decide)

/-! ## The filter-predicate claims -/

/-- C5, counterexample: the source's keyword test also trims surrounding
whitespace (`k.strip().lower()`), so an event whose keyword carries a
leading space is untracked although no keyword *equals*
`"Children's/Family"` case-insensitively; the claim's `exactly when` fails
here (`trackedSpec` is the claim's wording). -/
theorem claim_C5_counterexample :
    should_track ⟨"u", 2026, 3, 2, "", "", "Lecture", "", [" children's/family"]⟩ = false
      ∧ trackedSpec ⟨"u", 2026, 3, 2, "", "", "Lecture", "", [" children's/family"]⟩ = true := by
  constructor
  · decide
  · decide

/-- C5 as amended: `should_track` returns false exactly when the title
contains the orientation phrase case-insensitively, or some keyword equals
`"Children's/Family"` after trimming surrounding whitespace
(case-insensitively), or the event is a non-Saturday occurrence of the
recurring tour. -/
theorem claim_C5_amended (e : Event) :
    should_track e = false
      ↔ (is_library_orientation e = true
          ∨ (e.keywords.any fun k => pyLower (pyStrip k) == "children's/family") = true
          ∨ (is_art_arch_tour e = true ∧ is_saturday e = false)) := by
  have hcf : (e.keywords.any fun k => pyLower (pyStrip k) == "children's/family")
      = is_children_family e := rfl
  rw [hcf]
  unfold should_track
  by_cases h1 : is_library_orientation e <;> by_cases h2 : is_children_family e <;>
    by_cases h3 : is_art_arch_tour e <;> by_cases h4 : is_saturday e <;>
      simp [h1, h2, h3, h4]

/-- C6: the Notify-as-new predicate implies Tracked, and differs from it
exactly by additionally excluding every occurrence of the recurring tour. -/
theorem claim_C6 (e : Event) :
    (should_notify_as_new_event e = true → should_track e = true)
      ∧ should_notify_as_new_event e = (should_track e && !is_art_arch_tour e) := by
  unfold should_notify_as_new_event should_track
  by_cases h1 : is_library_orientation e <;> by_cases h2 : is_children_family e <;>
    by_cases h3 : is_art_arch_tour e <;> by_cases h4 : is_saturday e <;>
      simp [h1, h2, h3, h4]

/-- Witness for C6 at a concrete Saturday tour occurrence. -/
theorem claim_C6_witness :
    (should_notify_as_new_event
          ⟨"u", 2026, 2, 28, "", "", "Art & Architecture Tour", "", []⟩ = true
        → should_track ⟨"u", 2026, 2, 28, "", "", "Art & Architecture Tour", "", []⟩ = true)
      ∧ should_notify_as_new_event ⟨"u", 2026, 2, 28, "", "", "Art & Architecture Tour", "", []⟩
          = (should_track ⟨"u", 2026, 2, 28, "", "", "Art & Architecture Tour", "", []⟩
              && !is_art_arch_tour ⟨"u", 2026, 2, 28, "", "", "Art & Architecture Tour", "", []⟩) :=
  claim_C6 ⟨"u", 2026, 2, 28, "", "", "Art & Architecture Tour", "", []⟩

/-! ## State loading -/

/-- C4, counterexample: a record whose date string does not parse is
skipped individually; the stored hash (here `"abc"`) is still returned, so
the run is *not* downgraded to first-run semantics as the claim states. -/
theorem claim_C4_counterexample :
    load_state (.state ⟨some "abc", [.record ⟨"u", "NOT A DATE", "", "", "T", "", []⟩]⟩)
        = ("abc", [])
      ∧ ("abc" : String) ≠ "" := by
  constructor
  · decide
  · decide

/-- C4 as amended: an absent or unreadable/corrupt state file yields
`("", {})`; the loaded hash is always the stored hash field (defaulted to
`""`), and a persisted record whose date does not parse is skipped
individually, leaving the hash and the remaining records intact. -/
theorem claim_C4_amended :
    load_state .absent = ("", [])
      ∧ load_state .unreadable = ("", [])
      ∧ (∀ s : StoredState, (load_state (.state s)).1 = s.hash.getD "")
      ∧ (∀ (h : Option String) (items : List StoredItem) (d : EventDict),
          dict_to_event d = none →
            load_state (.state ⟨h, items ++ [.record d]⟩) = load_state (.state ⟨h, items⟩)) := by
  refine ⟨rfl, rfl, fun s => rfl, ?_⟩
  intro h items d hd
  simp only [load_state]
  rw [List.foldl_append]
  simp [hd]

/-- Witness for C4's amended record-skipping clause. -/
theorem claim_C4_witness :
    dict_to_event ⟨"u", "NOT A DATE", "", "", "T", "", []⟩ = none
      ∧ load_state (.state ⟨some "h1", [.record ⟨"u", "NOT A DATE", "", "", "T", "", []⟩]⟩)
          = load_state (.state ⟨some "h1", []⟩) :=
  ⟨by decide,
   claim_C4_amended.2.2.2 (some "h1") [] ⟨"u", "NOT A DATE", "", "", "T", "", []⟩ (by decide)⟩

/-! ## Persistence frame -/

/-- C3: the content hash is the digest of the canonical serialisation of
the current events alone (the timestamp is not part of its input); on a
non-first run with an unchanged hash nothing is written and the run
reports no changes, and in every other case the state file is overwritten
with the new hash, the current timestamp and all current events, while
both auxiliary outputs are regenerated from the full current list. -/
theorem claim_C3 (H : String → String) (now old_hash : String) (old : List (String × Event))
    (evs : List Event) (nfr : Bool) (fs : FS) :
    (old_hash ≠ "" → H (jsonDumpsItems evs) = old_hash →
        mainPersist H now old_hash old evs nfr fs
          = (fs, ["State: state.json", "Items found: " ++ natStr evs.length,
                  "Status: no changes (not rewriting state.json)"]))
      ∧ (old_hash = "" ∨ H (jsonDumpsItems evs) ≠ old_hash →
          (mainPersist H now old_hash old evs nfr fs).1
            = ⟨some (stateJson now evs (H (jsonDumpsItems evs))),
               some (jsonDumpsItems evs), some (mdText evs)⟩) := by
  constructor
  · intro h1 h2
    have hb : (old_hash == "") = false := by
      simp [h1]
    unfold mainPersist
    simp only [hb, h2, Bool.not_false, Bool.true_and, beq_self_eq_true, Bool.and_true,
      Bool.and_self, if_true]
  · intro h
    rcases h with h | h
    · have hb : (old_hash == "") = true := by simp [h]
      unfold mainPersist write_outputs save_state
      simp only [hb, Bool.not_true, Bool.false_and, Bool.and_false, if_false,
        Bool.false_eq_true]
    · have hb : (H (jsonDumpsItems evs) == old_hash) = false := by
        simp [h]
      unfold mainPersist write_outputs save_state
      simp only [hb, Bool.and_false, if_false]
      rfl

/-- Witness for C3: the skip branch at an unchanged hash, and the write
branch on a first run. -/
theorem claim_C3_witness :
    (("h" : String) ≠ ""
      ∧ mainPersist (fun _ => "h") "t" "h" [] [] false ⟨none, none, none⟩
          = (⟨none, none, none⟩,
             ["State: state.json", "Items found: " ++ natStr ([] : List Event).length,
              "Status: no changes (not rewriting state.json)"]))
      ∧ (mainPersist (fun _ => "h") "t" "" [] [] false ⟨none, none, none⟩).1
          = ⟨some (stateJson "t" [] ((fun _ => "h") (jsonDumpsItems []))),
             some (jsonDumpsItems []), some (mdText [])⟩ :=
  ⟨⟨by decide,
    (claim_C3 (fun _ => "h") "t" "h" [] [] false ⟨none, none, none⟩).1 (by decide) rfl⟩,
   (claim_C3 (fun _ => "h") "t" "" [] [] false ⟨none, none, none⟩).2 (Or.inl rfl)⟩

/-! ## Helper lemmas: the dict model and the sort keys -/

theorem keyMem_append (a b : List (String × Event)) (k : String) :
    keyMem (a ++ b) k = (keyMem a k || keyMem b k) := by
  simp [keyMem, List.any_append]

theorem foldl_pyDictInsert : ∀ (evs : List Event) (acc : List (String × Event)),
    (∀ e ∈ evs, keyMem acc e.key = false) → (evs.map Event.key).Nodup →
    evs.foldl (fun m e => pyDictInsert m e.key e) acc
      = acc ++ evs.map (fun e => (e.key, e))
  | [], acc, _, _ => by simp
  | e :: tl, acc, hdis, hnd => by
    simp only [List.foldl_cons, List.map_cons]
    have hkm : keyMem acc e.key = false := hdis e (by simp)
    have h1 : pyDictInsert acc e.key e = acc ++ [(e.key, e)] := by
      unfold pyDictInsert
      rw [hkm]
      simp
    rw [h1]
    have hcons := hnd
    rw [List.map_cons, List.nodup_cons] at hcons
    have hdis' : ∀ x ∈ tl, keyMem (acc ++ [(e.key, e)]) x.key = false := by
      intro x hx
      rw [keyMem_append, hdis x (by simp [hx])]
      simp only [Bool.false_or, keyMem, List.any_cons, List.any_nil, Bool.or_false]
      simp only [beq_eq_false_iff_ne, ne_eq]
      intro hcontra
      exact hcons.1 (hcontra ▸ List.mem_map_of_mem Event.key hx)
    rw [foldl_pyDictInsert tl (acc ++ [(e.key, e)]) hdis' hcons.2]
    simp

theorem current_by_key_eq (evs : List Event) (hnd : (evs.map Event.key).Nodup) :
    current_by_key evs = evs.map (fun e => (e.key, e)) := by
  have := foldl_pyDictInsert evs [] (by simp [keyMem]) hnd
  simpa [current_by_key] using this

theorem canonLE_imp_newLE {a b : Event} (h : canonLE a b) : newLE a b := by
  unfold canonLE canonKey at h
  unfold newLE newKey
  rw [Prod.Lex.le_iff] at h ⊢
  rcases h with h | ⟨h1, h⟩
  · exact Or.inl h
  · refine Or.inr ⟨h1, ?_⟩
    rw [Prod.Lex.le_iff] at h ⊢
    rcases h with h | ⟨h2, h⟩
    · exact Or.inl h
    · refine Or.inr ⟨h2, ?_⟩
      rw [Prod.Lex.le_iff] at h ⊢
      rcases h with h | ⟨h3, h⟩
      · exact Or.inl h
      · refine Or.inr ⟨h3, ?_⟩
        rw [Prod.Lex.le_iff] at h ⊢
        rcases h with h | ⟨h4, h⟩
        · exact Or.inl h
        · refine Or.inr ⟨h4, ?_⟩
          rw [Prod.Lex.le_iff] at h
          rcases h with h | ⟨h5, _⟩
          · exact le_of_lt h
          · exact le_of_eq h5

theorem new_events_eq (evs : List Event) (old : List (String × Event))
    (hnd : (evs.map Event.key).Nodup) :
    new_events evs old
      = List.insertionSort newLE
          (evs.filter (fun e => should_track e
            && (!keyMem (old_tracked old) e.key && should_notify_as_new_event e))) := by
  unfold new_events current_tracked
  rw [current_by_key_eq evs hnd]
  rw [List.filter_map, List.filter_map, List.map_map]
  congr 1
  have hcomp1 : ((fun p : String × Event => should_track p.2) ∘ fun e : Event => (e.key, e))
      = fun e : Event => should_track e := rfl
  have hcomp2 : ((fun p : String × Event =>
        !keyMem (old_tracked old) p.1 && should_notify_as_new_event p.2)
        ∘ fun e : Event => (e.key, e))
      = fun e : Event => !keyMem (old_tracked old) e.key && should_notify_as_new_event e := rfl
  have hcomp3 : (Prod.snd ∘ fun e : Event => (e.key, e)) = fun e : Event => e := rfl
  rw [hcomp1, hcomp2, hcomp3, List.filter_filter]
  rw [List.map_id']
  refine List.filter_congr ?_
  intro x _
  exact Bool.and_comm _ _

/-- C2: the new-events list is exactly the canonical-order filter of the
current sequence to the tracked events whose key is absent from the
previous tracked map and which pass the Notify-as-new predicate, and it is
sorted in the canonical order (url as final tiebreak). -/
theorem claim_C2 (evs : List Event) (old : List (String × Event))
    (hnd : (evs.map Event.key).Nodup) (hs : List.Sorted canonLE evs) :
    new_events evs old
        = evs.filter (fun e => should_track e
            && (!keyMem (old_tracked old) e.key && should_notify_as_new_event e))
      ∧ List.Sorted canonLE (new_events evs old) := by
  have heq := new_events_eq evs old hnd
  have hfilter : List.Sorted canonLE
      (evs.filter (fun e => should_track e
        && (!keyMem (old_tracked old) e.key && should_notify_as_new_event e))) :=
    List.Pairwise.filter _ hs
  have h5 : List.Sorted newLE
      (evs.filter (fun e => should_track e
        && (!keyMem (old_tracked old) e.key && should_notify_as_new_event e))) :=
    hfilter.imp fun h => canonLE_imp_newLE h
  rw [heq, h5.insertionSort_eq]
  exact ⟨rfl, hfilter⟩

/-- Witness for C2 with a singleton current list and empty previous map. -/
theorem claim_C2_witness :
    new_events [⟨"u", 2026, 3, 2, "", "", "Lecture", "", []⟩] []
        = [⟨"u", 2026, 3, 2, "", "", "Lecture", "", []⟩].filter
            (fun e => should_track e
              && (!keyMem (old_tracked []) e.key && should_notify_as_new_event e))
      ∧ List.Sorted canonLE (new_events [⟨"u", 2026, 3, 2, "", "", "Lecture", "", []⟩] []) :=
  claim_C2 [⟨"u", 2026, 3, 2, "", "", "Lecture", "", []⟩] [] (by simp)
    (List.sorted_singleton _)

/-! ## The baseline notification -/

theorem baselineList_eq (evs : List Event) (hnd : (evs.map Event.key).Nodup) :
    baselineList evs = List.insertionSort newLE (evs.filter should_track) := by
  unfold baselineList current_tracked
  rw [current_by_key_eq evs hnd, List.filter_map, List.map_map]
  congr 1
  have hcomp1 : ((fun p : String × Event => should_track p.2) ∘ fun e : Event => (e.key, e))
      = fun e : Event => should_track e := rfl
  have hcomp3 : (Prod.snd ∘ fun e : Event => (e.key, e)) = fun e : Event => e := rfl
  rw [hcomp1, hcomp3, List.map_id']

/-- C8: on a first run (empty loaded hash) no notification fires when the
flag is absent; with the flag supplied exactly one baseline notification
fires whose body lists the full tracked set in canonical order. -/
theorem claim_C8 (evs : List Event) (old : List (String × Event))
    (hnd : (evs.map Event.key).Nodup) (hs : List.Sorted canonLE evs) :
    mainNotifications false "" old evs = []
      ∧ mainNotifications true "" old evs
          = [("Athenaeum events: baseline",
              joinNl (("Baseline (current matching events): "
                  ++ natStr (evs.filter should_track).length)
                :: (evs.filter should_track).map fmt_line))]
      ∧ List.Sorted canonLE (evs.filter should_track) := by
  have hfilter : List.Sorted canonLE (evs.filter should_track) := List.Pairwise.filter _ hs
  have h5 : List.Sorted newLE (evs.filter should_track) :=
    hfilter.imp fun h => canonLE_imp_newLE h
  have hbl : baselineList evs = evs.filter should_track := by
    rw [baselineList_eq evs hnd, h5.insertionSort_eq]
  refine ⟨?_, ?_, hfilter⟩
  · unfold mainNotifications
    simp
  · unfold mainNotifications baselineNotification
    rw [hbl]
    simp

/-- Witness for C8 with a singleton current list. -/
theorem claim_C8_witness :
    mainNotifications false "" [] [⟨"u", 2026, 3, 2, "", "", "Lecture", "", []⟩] = []
      ∧ mainNotifications true "" [] [⟨"u", 2026, 3, 2, "", "", "Lecture", "", []⟩]
          = [("Athenaeum events: baseline",
              joinNl (("Baseline (current matching events): "
                  ++ natStr ([⟨"u", 2026, 3, 2, "", "", "Lecture", "", []⟩].filter
                      should_track).length)
                :: ([⟨"u", 2026, 3, 2, "", "", "Lecture", "", []⟩].filter
                      should_track).map fmt_line))]
      ∧ List.Sorted canonLE
          ([⟨"u", 2026, 3, 2, "", "", "Lecture", "", []⟩].filter should_track) :=
  claim_C8 [⟨"u", 2026, 3, 2, "", "", "Lecture", "", []⟩] [] (by simp)
    (List.sorted_singleton _)

/-! ## The reopened-tour rule -/

theorem find?_by_key : ∀ (evs : List Event), (evs.map Event.key).Nodup →
    ∀ x ∈ evs, evs.find? (fun e => e.key == x.key) = some x
  | [], _, x, hx => by cases hx
  | a :: tl, hnd, x, hx => by
    have hcons := hnd
    rw [List.map_cons, List.nodup_cons] at hcons
    rcases List.mem_cons.1 hx with rfl | hx'
    · simp [List.find?_cons]
    · have hne : (a.key == x.key) = false := by
        simp only [beq_eq_false_iff_ne, ne_eq]
        intro hcontra
        exact hcons.1 (hcontra ▸ List.mem_map_of_mem Event.key hx')
      simp only [List.find?_cons, hne]
      exact find?_by_key tl hcons.2 x hx'

theorem pyGet_map (evs : List Event) (g : Event → Event)
    (hnd : (evs.map Event.key).Nodup) (x : Event) (hx : x ∈ evs) :
    pyGet (evs.map (fun e => (e.key, g e))) x.key = some (g x) := by
  unfold pyGet
  rw [List.find?_map]
  have hcomp : ((fun p : String × Event => p.1 == x.key) ∘ fun e : Event => (e.key, g e))
      = fun e : Event => e.key == x.key := rfl
  rw [hcomp, find?_by_key evs hnd x hx]
  rfl

theorem filterMap_one {α β : Type} (f : α → Option β) :
    ∀ (l : List α) (a : α) (v : β), l.Nodup → a ∈ l → f a = some v →
      (∀ x ∈ l, x ≠ a → f x = none) → l.filterMap f = [v]
  | [], a, v, _, ha, _, _ => by cases ha
  | b :: tl, a, v, hnd, ha, hfa, hother => by
    have hcons := List.nodup_cons.1 hnd
    rcases List.mem_cons.1 ha with rfl | ha'
    · simp only [List.filterMap_cons, hfa]
      have htl : tl.filterMap f = [] := by
        rw [List.filterMap_eq_nil_iff]
        intro x hx
        exact hother x (by simp [hx]) (fun hxa => hcons.1 (hxa ▸ hx))
      rw [htl]
    · have hfb : f b = none := hother b (by simp) (fun hba => hcons.1 (hba ▸ ha'))
      simp only [List.filterMap_cons, hfb]
      exact filterMap_one f tl a v hcons.2 ha' hfa
        (fun x hx hxa => hother x (by simp [hx]) hxa)

/-- Part one of C1: membership in the reopened list, for a current
Saturday-tour event, holds exactly when the previous record at the same
key was `SOLD OUT` while the current one is not. -/
theorem reopened_mem_iff (evs : List Event) (old : List (String × Event)) (cur : Event)
    (hnd : (evs.map Event.key).Nodup) (hcur : cur ∈ evs)
    (htour : is_art_arch_tour cur = true) (hsat : is_saturday cur = true) :
    (∃ s1 s2, (cur, s1, s2) ∈ reopened evs old)
      ↔ ∃ prev, pyGet old cur.key = some prev ∧ pyUpper prev.status = "SOLD OUT"
          ∧ pyUpper cur.status ≠ "SOLD OUT" := by
  unfold reopened
  rw [current_by_key_eq evs hnd]
  constructor
  · rintro ⟨s1, s2, hmem⟩
    rw [List.mem_insertionSort, List.mem_filterMap] at hmem
    obtain ⟨p, hp, hf⟩ := hmem
    obtain ⟨x, hxin, rfl⟩ := List.mem_map.1 hp
    by_cases h1 : (is_art_arch_tour x && is_saturday x) = true
    · rw [if_pos h1] at hf
      cases hg : pyGet old x.key with
      | none => rw [hg] at hf; cases hf
      | some prev =>
        rw [hg] at hf
        dsimp only at hf
        by_cases h2 : (pyUpper prev.status == "SOLD OUT"
            && !(pyUpper x.status == "SOLD OUT")) = true
        · rw [if_pos h2] at hf
          have hf2 := Option.some.inj hf
          have hx1 : x = cur := congrArg Prod.fst hf2
          rw [Bool.and_eq_true] at h2
          obtain ⟨hs1, hs2⟩ := h2
          subst hx1
          refine ⟨prev, hg, beq_iff_eq.1 hs1, ?_⟩
          simpa using hs2
        · rw [if_neg h2] at hf; cases hf
    · rw [if_neg h1] at hf; cases hf
  · rintro ⟨prev, hg, hs1, hs2⟩
    refine ⟨pyUpper prev.status, pyUpper cur.status, ?_⟩
    rw [List.mem_insertionSort, List.mem_filterMap]
    refine ⟨(cur.key, cur), List.mem_map_of_mem _ hcur, ?_⟩
    rw [if_pos (by rw [htour, hsat]; rfl)]
    rw [hg]
    dsimp only
    rw [if_pos (by simp [hs1, hs2])]

/-- Part two of C1: the spec's scenario.  The previous set equals the
current one except that the Saturday-tour event `e` was `SOLD OUT`; with
`e`'s current status empty, exactly one transition
`(e, "SOLD OUT", "")` is recorded and no new-event entry carries `e`'s
url. -/
theorem reopened_scenario (evs : List Event) (e : Event)
    (hnd : (evs.map Event.key).Nodup) (he : e ∈ evs)
    (htour : is_art_arch_tour e = true) (hsat : is_saturday e = true)
    (hst : e.status = "") :
    reopened evs (soldOutPrev evs e) = [(e, "SOLD OUT", "")]
      ∧ ∀ x ∈ new_events evs (soldOutPrev evs e), x.key ≠ e.key := by
  have hinj := List.inj_on_of_nodup_map hnd
  have hget : ∀ x ∈ evs, pyGet (soldOutPrev evs e) x.key
      = some (if x.key == e.key then { x with status := "SOLD OUT" } else x) :=
    fun x hx => pyGet_map evs
      (fun x => if x.key == e.key then { x with status := "SOLD OUT" } else x) hnd x hx
  constructor
  · unfold reopened
    rw [current_by_key_eq evs hnd, List.filterMap_map]
    have hiter : evs.filterMap ((fun p : String × Event =>
        if is_art_arch_tour p.2 && is_saturday p.2 then
          match pyGet (soldOutPrev evs e) p.1 with
          | some prev =>
            let old_status := pyUpper prev.status
            let new_status := pyUpper p.2.status
            if old_status == "SOLD OUT" && !(new_status == "SOLD OUT") then
              some (p.2, old_status, new_status)
            else none
          | none => none
        else none) ∘ fun x : Event => (x.key, x)) = [(e, "SOLD OUT", "")] := by
      refine filterMap_one _ evs e (e, "SOLD OUT", "") (List.Nodup.of_map _ hnd) he ?_ ?_
      · show (if is_art_arch_tour e && is_saturday e then _ else none) = _
        rw [if_pos (by rw [htour, hsat]; rfl)]
        rw [hget e he]
        simp only [beq_self_eq_true, if_true]
        have hup : pyUpper "SOLD OUT" = "SOLD OUT" := by decide
        show (if pyUpper ({ e with status := "SOLD OUT" } : Event).status == "SOLD OUT"
              && !(pyUpper e.status == "SOLD OUT") then
            some (e, pyUpper ({ e with status := "SOLD OUT" } : Event).status, pyUpper e.status)
          else none) = some (e, "SOLD OUT", "")
        have hstat : ({ e with status := "SOLD OUT" } : Event).status = "SOLD OUT" := rfl
        rw [hstat, hup, hst]
        rw [if_pos (by decide)]
        rw [show pyUpper "" = "" from by decide]
      · intro x hx hxe
        show (if is_art_arch_tour x && is_saturday x then _ else none) = none
        by_cases h1 : (is_art_arch_tour x && is_saturday x) = true
        · rw [if_pos h1]
          rw [hget x hx]
          have hkne : (x.key == e.key) = false := by
            simp only [beq_eq_false_iff_ne, ne_eq]
            intro hk
            exact hxe (hinj hx he hk)
          rw [hkne]
          simp only [if_false, Bool.false_eq_true]
          show (if pyUpper x.status == "SOLD OUT" && !(pyUpper x.status == "SOLD OUT") then _
            else none) = none
          rw [if_neg (by simp [Bool.and_not_self])]
        · rw [if_neg h1]
    rw [hiter]
    rfl
  · intro x hx
    rw [new_events_eq evs (soldOutPrev evs e) hnd, List.mem_insertionSort,
      List.mem_filter] at hx
    intro hkeq
    have hx' := hx.1
    have hxe : x = e := hinj hx' he hkeq
    have hnn : should_notify_as_new_event e = false := by
      unfold should_notify_as_new_event
      by_cases h1 : is_library_orientation e <;> by_cases h2 : is_children_family e <;>
        simp [h1, h2, htour]
    rw [hxe] at hx
    have := hx.2
    rw [hnn] at this
    simp at this

/-- C1: both halves of the reopened-tour claim — the general
record-iff-previous-was-sold-out rule for current Saturday-tour events,
and the sold-out-to-empty scenario producing exactly one transition and no
new-event entry for that url. -/
theorem claim_C1 :
    (∀ (evs : List Event) (old : List (String × Event)) (cur : Event),
        (evs.map Event.key).Nodup → cur ∈ evs →
        is_art_arch_tour cur = true → is_saturday cur = true →
        ((∃ s1 s2, (cur, s1, s2) ∈ reopened evs old)
          ↔ ∃ prev, pyGet old cur.key = some prev ∧ pyUpper prev.status = "SOLD OUT"
              ∧ pyUpper cur.status ≠ "SOLD OUT"))
      ∧ (∀ (evs : List Event) (e : Event),
          (evs.map Event.key).Nodup → e ∈ evs →
          is_art_arch_tour e = true → is_saturday e = true → e.status = "" →
          reopened evs (soldOutPrev evs e) = [(e, "SOLD OUT", "")]
            ∧ ∀ x ∈ new_events evs (soldOutPrev evs e), x.key ≠ e.key) :=
  ⟨reopened_mem_iff, reopened_scenario⟩

/-- Witness for C1: one Saturday tour occurrence (2026-02-28), currently
unlabelled, previously sold out. -/
theorem claim_C1_witness :
    ((∃ s1 s2, (⟨"u/a", 2026, 2, 28, "10:00 AM", "", "Art & Architecture Tour", "", []⟩, s1, s2)
          ∈ reopened [⟨"u/a", 2026, 2, 28, "10:00 AM", "", "Art & Architecture Tour", "", []⟩]
              [("u/a", ⟨"u/a", 2026, 2, 28, "10:00 AM", "SOLD OUT", "Art & Architecture Tour",
                "", []⟩)])
        ↔ ∃ prev,
            pyGet [("u/a", ⟨"u/a", 2026, 2, 28, "10:00 AM", "SOLD OUT", "Art & Architecture Tour",
                "", []⟩)]
              (Event.key ⟨"u/a", 2026, 2, 28, "10:00 AM", "", "Art & Architecture Tour", "", []⟩)
              = some prev
            ∧ pyUpper prev.status = "SOLD OUT"
            ∧ pyUpper (Event.status
                ⟨"u/a", 2026, 2, 28, "10:00 AM", "", "Art & Architecture Tour", "", []⟩)
              ≠ "SOLD OUT")
      ∧ (reopened [⟨"u/a", 2026, 2, 28, "10:00 AM", "", "Art & Architecture Tour", "", []⟩]
            (soldOutPrev [⟨"u/a", 2026, 2, 28, "10:00 AM", "", "Art & Architecture Tour", "", []⟩]
              ⟨"u/a", 2026, 2, 28, "10:00 AM", "", "Art & Architecture Tour", "", []⟩)
          = [(⟨"u/a", 2026, 2, 28, "10:00 AM", "", "Art & Architecture Tour", "", []⟩,
              "SOLD OUT", "")]
        ∧ ∀ x ∈ new_events [⟨"u/a", 2026, 2, 28, "10:00 AM", "", "Art & Architecture Tour", "", []⟩]
              (soldOutPrev [⟨"u/a", 2026, 2, 28, "10:00 AM", "", "Art & Architecture Tour", "", []⟩]
                ⟨"u/a", 2026, 2, 28, "10:00 AM", "", "Art & Architecture Tour", "", []⟩),
            x.key ≠ Event.key ⟨"u/a", 2026, 2, 28, "10:00 AM", "", "Art & Architecture Tour", "", []⟩) :=
  ⟨claim_C1.1 [⟨"u/a", 2026, 2, 28, "10:00 AM", "", "Art & Architecture Tour", "", []⟩]
      [("u/a", ⟨"u/a", 2026, 2, 28, "10:00 AM", "SOLD OUT", "Art & Architecture Tour", "", []⟩)]
      ⟨"u/a", 2026, 2, 28, "10:00 AM", "", "Art & Architecture Tour", "", []⟩
      (by simp) (by simp) (by decide) (by decide),
   claim_C1.2 [⟨"u/a", 2026, 2, 28, "10:00 AM", "", "Art & Architecture Tour", "", []⟩]
      ⟨"u/a", 2026, 2, 28, "10:00 AM", "", "Art & Architecture Tour", "", []⟩
      (by simp) (by simp) (by decide) (by decide) (by decide)⟩

end AthEvents
